import Mathlib

/-!
Verification development for the `TemplateForecaster` bot (`src/main.py`).

The repository's own code is the research dispatcher `run_research`, the
prompt builders, and the numeric bound-message helper
`_create_upper_and_lower_bound_messages`; those are embedded directly from
the source. The extraction routines (`PredictionExtractor.*`) are supplied
by the external `forecasting_tools` library and are not part of the
repository's sources, so they are modelled from the specification
(sections 4.1-4.3), as marked on each definition.

Numbers that the program manipulates as Python floats are modelled as
rationals (`ℚ`), so normalisation and clamping facts are exact.
-/

namespace MetacBot

/-! ## Research dispatcher (embedded from `src/main.py`, `run_research`) -/

/-- The four research providers, in the precedence order of the
`if`/`elif` chain of `run_research`. -/
inductive Provider where
  | asknews
  | exaSmartSearcher
  | perplexity
  | perplexityViaOpenRouter
deriving DecidableEq, Repr

/-- The environment variables probed by `run_research`.  `none` models an
unset variable, `some s` a variable set to the string `s`. -/
structure Env where
  asknews_client_id : Option String
  asknews_secret : Option String
  exa_api_key : Option String
  perplexity_api_key : Option String
  openrouter_api_key : Option String
deriving DecidableEq, Repr

/-- Python truthiness of `os.getenv(...)`: an unset variable yields `None`
(falsy) and a variable set to the empty string is also falsy. -/
def truthy : Option String → Bool
  | none => false
  | some s => !s.isEmpty

/-- The guard of the first branch of `run_research`:
`os.getenv("ASKNEWS_CLIENT_ID") and os.getenv("ASKNEWS_SECRET")`. -/
def asknewsConfigured (e : Env) : Bool :=
  truthy e.asknews_client_id && truthy e.asknews_secret

/-- The provider chosen by the `if`/`elif` chain of `run_research`, or
`none` when no branch fires. -/
def selectProvider (e : Env) : Option Provider :=
  if asknewsConfigured e then some .asknews
  else if truthy e.exa_api_key then some .exaSmartSearcher
  else if truthy e.perplexity_api_key then some .perplexity
  else if truthy e.openrouter_api_key then some .perplexityViaOpenRouter
  else none

/-- The same environment with both AskNews credentials removed. -/
def clearAskNews (e : Env) : Env :=
  ⟨none, none, e.exa_api_key, e.perplexity_api_key, e.openrouter_api_key⟩

/-- Embedding of `run_research` of `src/main.py`, with the awaited provider calls
abstracted as a function `call` from the provider to its outcome: a
provider call either returns research text or raises (`Except.error`).
The body mirrors the `if`/`elif` chain: the chosen provider's call is
awaited with no `try`/`except` around it, and when no provider is
configured the empty string is returned. -/
def run_research {ε : Type} (e : Env)
    (call : Provider → Except ε String) : Except ε String :=
  if asknewsConfigured e then call .asknews
  else if truthy e.exa_api_key then call .exaSmartSearcher
  else if truthy e.perplexity_api_key then call .perplexity
  else if truthy e.openrouter_api_key then call .perplexityViaOpenRouter
  else .ok ""

/-! ## Percentage extractor

Modelled from the spec: `PredictionExtractor.extract_last_percentage_value`
is code of the external `forecasting_tools` library, absent from `src/`;
the definitions below follow spec section 4.1 — scan the text for
number-followed-by-percent-sign substrings, take the last match, divide by
100, and clamp into a tight epsilon band strictly inside
`[min_prediction, max_prediction]` (never exactly the hard boundary). -/

/-- Errors raised by the modelled extractors (spec `ExtractionError`). -/
inductive ExtractionError where
  | noPercentageFound
  | noOptionMatched
  | tooFewPercentiles
deriving DecidableEq, Repr

/-- Digit-run state after consuming one character: a digit extends the
current run, any other character resets it. -/
def nextRun (r : Option ℕ) (c : Char) : Option ℕ :=
  if c.isDigit then some (r.getD 0 * 10 + (c.toNat - 48)) else none

/-- Scan characters left to right; each `%` that immediately ends a digit
run emits that number as a percentage match, in document order. -/
def scanAux : Option ℕ → List Char → List ℕ
  | _, [] => []
  | r, c :: cs =>
    if c = '%' then
      match r with
      | some n => n :: scanAux none cs
      | none => scanAux none cs
    else scanAux (nextRun r c) cs

/-- Digit-run state left after scanning a list of characters. -/
def runAfter : Option ℕ → List Char → Option ℕ
  | r, [] => r
  | r, c :: cs =>
    if c = '%' then runAfter none cs
    else runAfter (nextRun r c) cs

/-- All percentage matches of a text, in document order. -/
def findPercents (text : String) : List ℕ :=
  scanAux none text.data

/-- Modelled from the spec: the epsilon of the clamp band
(`[0.01, 0.99]` for the binary range `[0, 1]`). -/
def epsBand : ℚ := 1 / 100

/-- Clamp a value into the epsilon band strictly inside `[lo, hi]`. -/
def clampToBand (v lo hi : ℚ) : ℚ :=
  min (max v (lo + epsBand)) (hi - epsBand)

/-- Modelled from the spec:
`PredictionExtractor.extract_last_percentage_value` (external
`forecasting_tools` code): take the last percentage match of the text,
divide by 100 and clamp; fail when no match exists anywhere. -/
def extract_last_percentage_value (text : String)
    (min_prediction max_prediction : ℚ) : Except ExtractionError ℚ :=
  match (findPercents text).getLast? with
  | none => .error .noPercentageFound
  | some n => .ok (clampToBand ((n : ℚ) / 100) min_prediction max_prediction)

/-! ## Option-list extractor

Modelled from the spec:
`PredictionExtractor.extract_option_list_with_percentage_afterwards` is
code of the external `forecasting_tools` library, absent from `src/`; the
definitions below follow spec section 4.2 with the lenient policy of
section 8 (P8): the tail lines of the model text are modelled as parsed
`(label, percentage)` pairs in document order; canonical options are
matched case-insensitively after trimming; unmatched options receive the
floor probability; matched raw probabilities are normalised to sum 1,
floored, and renormalised. -/

/-- Modelled from the spec: the floor probability (spec epsilon 0.001). -/
def floorEps : ℚ := 1 / 1000

/-- Case-insensitive, whitespace-trimmed label normalisation, computed on
the character list of the label. -/
def normLabel (s : String) : String :=
  String.mk (((s.data.dropWhile Char.isWhitespace).reverse.dropWhile
    Char.isWhitespace).reverse.map Char.toLower)

/-- Raw probability of a canonical option: the last tail line whose
normalised label matches, its percentage divided by 100. -/
def lookupOption (lines : List (String × ℚ)) (o : String) : Option ℚ :=
  (lines.reverse.find? (fun l => normLabel l.1 == normLabel o)).map
    (fun l => l.2 / 100)

/-- Raw per-option probabilities, one per canonical option in canonical
order: a matched option's percentage divided by 100, the floor for an
unmatched option (lenient policy). -/
def rawProbs (lines : List (String × ℚ)) (options : List String) :
    List (String × ℚ) :=
  options.map (fun o => (o, (lookupOption lines o).getD floorEps))

/-- Proportional rescaling so the probabilities sum to 1; a zero sum
cannot be rescaled and is left as is. -/
def normalizeProbs (l : List (String × ℚ)) : List (String × ℚ) :=
  if (l.map (fun x => x.2)).sum = 0 then l
  else l.map (fun x => (x.1, x.2 / (l.map (fun x => x.2)).sum))

/-- Apply the per-option floor. -/
def floorProbs (l : List (String × ℚ)) : List (String × ℚ) :=
  l.map (fun x => (x.1, max x.2 floorEps))

/-- Modelled from the spec:
`PredictionExtractor.extract_option_list_with_percentage_afterwards`
(external `forecasting_tools` code).  `lines` are the parsed
`label: NN%` tail lines of the model text, `options` the question's
canonical ordered option list.  Fails when no canonical option matches
any line; otherwise unmatched options get the floor, the probabilities
are normalised, floored and renormalised. -/
def extract_option_list_with_percentage_afterwards
    (lines : List (String × ℚ)) (options : List String) :
    Except ExtractionError (List (String × ℚ)) :=
  if (options.map (fun o => lookupOption lines o)).all
      (fun v => v.isNone) then
    .error .noOptionMatched
  else
    .ok (normalizeProbs (floorProbs (normalizeProbs (rawProbs lines options))))

instance {ε α : Type} [DecidableEq ε] [DecidableEq α] :
    DecidableEq (Except ε α) := fun a b =>
  match a, b with
  | .error x, .error y =>
    if h : x = y then isTrue (by rw [h])
    else isFalse (fun hc => h (Except.error.inj hc))
  | .error _, .ok _ => isFalse (fun hc => Except.noConfusion hc)
  | .ok _, .error _ => isFalse (fun hc => Except.noConfusion hc)
  | .ok x, .ok y =>
    if h : x = y then isTrue (by rw [h])
    else isFalse (fun hc => h (Except.ok.inj hc))

/-! ## Percentile extractor and numeric questions -/

/-- The fields of a `NumericQuestion` used by `_run_forecast_on_numeric`
and `_create_upper_and_lower_bound_messages`. Bounds are modelled as
rationals. -/
structure NumericQuestion where
  lower_bound : ℚ
  upper_bound : ℚ
  open_lower_bound : Bool
  open_upper_bound : Bool
  unit_of_measure : Option String
deriving DecidableEq, Repr

/-- A `NumericDistribution`: the declared `(percentile, value)` pairs plus
the question's bound metadata. -/
structure NumericDistribution where
  declared_percentiles : List (ℕ × ℚ)
  lower_bound : ℚ
  upper_bound : ℚ
  open_lower_bound : Bool
  open_upper_bound : Bool
deriving DecidableEq, Repr

/-- Clip a value to the question's closed bounds; an open bound leaves the
value untouched on that side (spec section 4.3 step 4). -/
def clipUpper (q : NumericQuestion) (v : ℚ) : ℚ :=
  if q.open_upper_bound then v else min v q.upper_bound

def clipValue (q : NumericQuestion) (v : ℚ) : ℚ :=
  if q.open_lower_bound then clipUpper q v
  else max (clipUpper q v) q.lower_bound

/-- Monotonic repair after a first value `prev`: each later value is
clamped upward to the running previous value (spec section 4.3 step 3). -/
def repairFrom (prev : ℚ) : List (ℕ × ℚ) → List (ℕ × ℚ)
  | [] => []
  | (p, v) :: rest => (p, max v prev) :: repairFrom (max v prev) rest

/-- Monotonic repair of a percentile-sorted list: the first data point is
kept, every later one is clamped upward. -/
def repairMonotone : List (ℕ × ℚ) → List (ℕ × ℚ)
  | [] => []
  | (p, v) :: rest => (p, v) :: repairFrom v rest

/-- Ordering of parsed pairs by percentile rank. -/
def percLE (a b : ℕ × ℚ) : Prop := a.1 ≤ b.1

instance : DecidableRel percLE := fun a b => Nat.decLe a.1 b.1

instance : IsTotal (ℕ × ℚ) percLE := ⟨fun a b => Nat.le_total a.1 b.1⟩

instance : IsTrans (ℕ × ℚ) percLE := ⟨fun _ _ _ h h' => Nat.le_trans h h'⟩

/-- Modelled from the spec:
`PredictionExtractor.extract_numeric_distribution_from_list_of_percentile_number_and_probability`
(external `forecasting_tools` code).  `pairs` are the parsed
`Percentile NN: value` pairs of the model text; fewer than two points is
fatal; otherwise the pairs are walked in increasing percentile order,
monotonically repaired, and clipped to the question's closed bounds. -/
def extract_numeric_distribution_from_list_of_percentile_number_and_probability
    (pairs : List (ℕ × ℚ)) (q : NumericQuestion) :
    Except ExtractionError NumericDistribution :=
  if pairs.length < 2 then .error .tooFewPercentiles
  else
    .ok ⟨(repairMonotone (pairs.insertionSort percLE)).map
        (fun x => (x.1, clipValue q x.2)),
      q.lower_bound, q.upper_bound, q.open_lower_bound, q.open_upper_bound⟩

/-! ## Bound messages (embedded from `src/main.py`,
`_create_upper_and_lower_bound_messages`) -/

/-- Embedding of `_create_upper_and_lower_bound_messages` of `src/main.py`: an open
bound yields the empty message, a closed bound the fixed sentence with the
bound interpolated; returns `(upper_message, lower_message)`. -/
def _create_upper_and_lower_bound_messages (q : NumericQuestion) :
    String × String :=
  let upper_bound_message :=
    if q.open_upper_bound then ""
    else "The outcome can not be higher than " ++ toString q.upper_bound ++ "."
  let lower_bound_message :=
    if q.open_lower_bound then ""
    else "The outcome can not be lower than " ++ toString q.lower_bound ++ "."
  (upper_bound_message, lower_bound_message)

/-! ## Theorems: research dispatcher -/

/-- The dispatcher `run_research` awaits exactly the provider chosen by the
`if`/`elif` chain. -/
theorem run_research_eq_select {ε : Type} (e : Env)
    (call : Provider → Except ε String) :
    run_research e call =
      match selectProvider e with
      | some p => call p
      | none => .ok "" := by
  unfold run_research selectProvider
  split_ifs <;> rfl

/-- C2: `run_research` queries exactly one provider — the first in the
precedence order AskNews, Exa, Perplexity, Perplexity-via-OpenRouter whose
credentials are present — and returns the empty string, without raising,
when no provider is configured. -/
theorem run_research_precedence_and_empty_default {ε : Type} (e : Env)
    (call : Provider → Except ε String) :
    (∀ p, selectProvider e = some p → run_research e call = call p) ∧
    (selectProvider e = none → run_research e call = .ok "") ∧
    (selectProvider e = some .asknews ↔ asknewsConfigured e = true) ∧
    (selectProvider e = some .exaSmartSearcher ↔
      asknewsConfigured e = false ∧ truthy e.exa_api_key = true) ∧
    (selectProvider e = some .perplexity ↔
      asknewsConfigured e = false ∧ truthy e.exa_api_key = false ∧
      truthy e.perplexity_api_key = true) ∧
    (selectProvider e = some .perplexityViaOpenRouter ↔
      asknewsConfigured e = false ∧ truthy e.exa_api_key = false ∧
      truthy e.perplexity_api_key = false ∧
      truthy e.openrouter_api_key = true) ∧
    (selectProvider e = none ↔
      asknewsConfigured e = false ∧ truthy e.exa_api_key = false ∧
      truthy e.perplexity_api_key = false ∧
      truthy e.openrouter_api_key = false) := by
  refine ⟨?_, ?_, ?_⟩
  · intro p hp
    rw [run_research_eq_select, hp]
  · intro hp
    rw [run_research_eq_select, hp]
  · unfold selectProvider
    split_ifs <;> simp_all


/-- Witness for C2 at a concrete environment: only `PERPLEXITY_API_KEY`
is set, so the Perplexity call is the one queried. -/
theorem run_research_precedence_and_empty_default_witness :
    run_research ⟨none, none, none, some "key", none⟩
      (fun p => match p with
        | .perplexity => Except.ok "perplexity research"
        | _ => Except.error ()) = Except.ok "perplexity research" :=
  (run_research_precedence_and_empty_default
    ⟨none, none, none, some "key", none⟩
    (fun p => match p with
      | .perplexity => Except.ok "perplexity research"
      | _ => Except.error ())).1 .perplexity (by decide)

/-- C3: when the provider selected by the precedence order is configured
but its call fails, `run_research` propagates exactly that failure: no
catch, no fallback to a later provider, no substituted empty text. -/
theorem run_research_propagates_failure {ε : Type} (e : Env)
    (call : Provider → Except ε String) (p : Provider) (err : ε)
    (hsel : selectProvider e = some p) (hfail : call p = .error err) :
    run_research e call = .error err := by
  rw [run_research_eq_select, hsel]
  exact hfail

/-- Witness for C3: Perplexity is configured and its call raises; the
error reaches the caller unchanged. -/
theorem run_research_propagates_failure_witness :
    run_research ⟨none, none, none, some "key", none⟩
      (fun _ => Except.error "ProviderUnavailableError")
      = Except.error "ProviderUnavailableError" :=
  run_research_propagates_failure ⟨none, none, none, some "key", none⟩
    (fun _ => Except.error "ProviderUnavailableError") .perplexity
    "ProviderUnavailableError" (by decide) rfl

/-- C9: AskNews is selected only when both `ASKNEWS_CLIENT_ID` and
`ASKNEWS_SECRET` are set; with exactly one of the two set, dispatch is
exactly what it would be with AskNews unconfigured. -/
theorem asknews_needs_both_credentials (e : Env) :
    (selectProvider e = some .asknews →
      e.asknews_client_id.isSome = true ∧ e.asknews_secret.isSome = true) ∧
    (e.asknews_client_id.isSome ≠ e.asknews_secret.isSome →
      selectProvider e = selectProvider (clearAskNews e)) := by
  obtain ⟨c, s, x, p, o⟩ := e
  constructor
  · intro h
    cases c <;> cases s <;>
      simp_all [selectProvider, asknewsConfigured, truthy] <;>
      split_ifs at h <;> simp_all
  · intro hne
    cases c <;> cases s <;>
      simp_all [selectProvider, asknewsConfigured, truthy, clearAskNews]

/-- Witness for C9: client id set, secret unset; dispatch falls through
to Exa exactly as with AskNews unconfigured. -/
theorem asknews_needs_both_credentials_witness :
    selectProvider ⟨some "id", none, some "x", none, none⟩ =
      selectProvider (clearAskNews ⟨some "id", none, some "x", none, none⟩) :=
  (asknews_needs_both_credentials ⟨some "id", none, some "x", none, none⟩).2
    (by decide)

/-! ## Theorems: numeric bound messages -/

/-- A string ending in the literal `"."` is never empty. -/
theorem append_dot_ne_empty (a b : String) : a ++ b ++ "." ≠ "" := by
  intro h
  have h2 := congrArg String.length h
  simp [String.length_append] at h2
  exact absurd h2.2 (by decide)

/-- C10: `_create_upper_and_lower_bound_messages` returns the empty
string for an open bound and the exact fixed sentence for a closed bound;
the prompt asserts a bound iff that bound is closed. -/
theorem bound_messages_iff_closed (q : NumericQuestion) :
    ((_create_upper_and_lower_bound_messages q).1 = "" ↔
      q.open_upper_bound = true) ∧
    (q.open_upper_bound = false →
      (_create_upper_and_lower_bound_messages q).1 =
        "The outcome can not be higher than " ++ toString q.upper_bound
          ++ ".") ∧
    ((_create_upper_and_lower_bound_messages q).2 = "" ↔
      q.open_lower_bound = true) ∧
    (q.open_lower_bound = false →
      (_create_upper_and_lower_bound_messages q).2 =
        "The outcome can not be lower than " ++ toString q.lower_bound
          ++ ".") := by
  unfold _create_upper_and_lower_bound_messages
  cases hu : q.open_upper_bound <;> cases hl : q.open_lower_bound <;>
    simp_all [append_dot_ne_empty]

/-- Witness for C10 at a concrete closed-bound question. -/
theorem bound_messages_iff_closed_witness :
    (_create_upper_and_lower_bound_messages ⟨0, 100, false, false, none⟩).1 =
      "The outcome can not be higher than " ++ toString (100 : ℚ) ++ "." :=
  (bound_messages_iff_closed ⟨0, 100, false, false, none⟩).2.1 rfl

/-! ## Theorems: percentage extractor -/

/-- Scanning a concatenation scans the first part, then the second from
the digit-run state the first part leaves behind. -/
theorem scanAux_append (xs : List Char) :
    ∀ (r : Option ℕ) (ys : List Char),
      scanAux r (xs ++ ys) = scanAux r xs ++ scanAux (runAfter r xs) ys := by
  induction xs with
  | nil => intro r ys; simp [scanAux, runAfter]
  | cons c cs ih =>
    intro r ys
    by_cases hc : c = '%'
    · cases r with
      | none => simp [scanAux, runAfter, hc, ih]
      | some n => simp [scanAux, runAfter, hc, ih]
    · simp [scanAux, runAfter, hc, ih]

/-- A character that is neither a digit nor `%` resets the scan state. -/
theorem scanAux_reset (r : Option ℕ) (c : Char) (cs : List Char)
    (hd : c.isDigit = false) (hp : ¬c = '%') :
    scanAux r (c :: cs) = scanAux none cs := by
  simp [scanAux, hp, nextRun, hd]

/-- Scanning `"Probability: 0%"` from any state finds exactly the match
`0`. -/
theorem scanAux_prob_zero (r : Option ℕ) :
    scanAux r "Probability: 0%".data = [0] := by
  rw [show "Probability: 0%".data
      = 'P' :: "robability: 0%".data from rfl]
  rw [scanAux_reset r 'P' _ (by decide) (by decide)]
  decide

/-- Scanning `"Probability: 100%"` from any state finds exactly the match
`100`. -/
theorem scanAux_prob_hundred (r : Option ℕ) :
    scanAux r "Probability: 100%".data = [100] := by
  rw [show "Probability: 100%".data
      = 'P' :: "robability: 100%".data from rfl]
  rw [scanAux_reset r 'P' _ (by decide) (by decide)]
  decide

/-- The percentage matches of a concatenated text. -/
theorem findPercents_append (s t : String) :
    findPercents (s ++ t) =
      findPercents s ++ scanAux (runAfter none s.data) t.data := by
  unfold findPercents
  rw [String.data_append, scanAux_append]

/-- Every successful binary extraction with range `[0, 1]` lands in the
clamp band `[1/100, 99/100]`. -/
theorem extract_ok_in_band (text : String) (p : ℚ)
    (h : extract_last_percentage_value text 0 1 = .ok p) :
    1 / 100 ≤ p ∧ p ≤ 99 / 100 := by
  unfold extract_last_percentage_value at h
  cases hl : (findPercents text).getLast? with
  | none => rw [hl] at h; exact absurd h (by simp)
  | some n =>
    rw [hl] at h
    have hp : p = clampToBand ((n : ℚ) / 100) 0 1 := by
      cases h; rfl
    subst hp
    unfold clampToBand epsBand
    constructor
    · apply le_min
      · calc (1 : ℚ) / 100 = 0 + 1 / 100 := by norm_num
          _ ≤ max ((n : ℚ) / 100) (0 + 1 / 100) := le_max_right _ _
      · norm_num
    · exact le_trans (min_le_right _ _) (by norm_num)

/-- C1: for every text ending in `Probability: 0%` or `Probability: 100%`,
the binary extraction with range `[0, 1]` succeeds (clamped, not
rejected) and yields a probability strictly inside `(0, 1)` — never
exactly `0` or `1`. -/
theorem binary_forecast_strictly_inside_unit_interval (s : String) :
    (∃ p, extract_last_percentage_value (s ++ "Probability: 0%") 0 1
        = .ok p ∧ 0 < p ∧ p < 1) ∧
    (∃ p, extract_last_percentage_value (s ++ "Probability: 100%") 0 1
        = .ok p ∧ 0 < p ∧ p < 1) := by
  constructor
  · refine ⟨1 / 100, ?_, by norm_num, by norm_num⟩
    unfold extract_last_percentage_value
    rw [findPercents_append, scanAux_prob_zero, List.getLast?_concat]
    show Except.ok (clampToBand (((0 : ℕ) : ℚ) / 100) 0 1) = _
    congr 1
    unfold clampToBand epsBand
    rw [show (((0 : ℕ) : ℚ) / 100) = 0 from by norm_num,
      max_eq_right (by norm_num : (0 : ℚ) ≤ 0 + 1 / 100),
      min_eq_left (by norm_num : (0 : ℚ) + 1 / 100 ≤ 1 - 1 / 100)]
    norm_num
  · refine ⟨99 / 100, ?_, by norm_num, by norm_num⟩
    unfold extract_last_percentage_value
    rw [findPercents_append, scanAux_prob_hundred, List.getLast?_concat]
    show Except.ok (clampToBand (((100 : ℕ) : ℚ) / 100) 0 1) = _
    congr 1
    unfold clampToBand epsBand
    rw [show (((100 : ℕ) : ℚ) / 100) = 1 from by norm_num,
      max_eq_left (by norm_num : (0 : ℚ) + 1 / 100 ≤ 1),
      min_eq_right (by norm_num : (1 : ℚ) - 1 / 100 ≤ 1)]
    norm_num

/-- Counterexample to C4 as stated: the text
`"maybe 30%... Probability: 100%"` contains several percentage
statements, its last match is `100`, yet the extraction returns
`99/100`, not `100/100`: the clamp of spec section 4.1 overrides
division by 100 at the boundary. -/
theorem last_percentage_match_counterexample :
    extract_last_percentage_value "maybe 30%... Probability: 100%" 0 1
      = .ok (99 / 100) ∧ ((99 : ℚ) / 100) ≠ ((100 : ℚ) / 100) := by
  constructor
  · have h : (findPercents "maybe 30%... Probability: 100%").getLast?
        = some 100 := by decide
    unfold extract_last_percentage_value
    rw [h]
    show Except.ok (clampToBand (((100 : ℕ) : ℚ) / 100) 0 1) = _
    congr 1
    unfold clampToBand epsBand
    rw [show (((100 : ℕ) : ℚ) / 100) = 1 from by norm_num,
      max_eq_left (by norm_num : (0 : ℚ) + 1 / 100 ≤ 1),
      min_eq_right (by norm_num : (1 : ℚ) - 1 / 100 ≤ 1)]
    norm_num
  · norm_num

/-- C4 (amended): the binary extraction returns the last percentage
match in document order divided by 100 whenever that quotient lies in
the clamp band `[0.01, 0.99]`; boundary and out-of-range matches are
clamped to the band edge. -/
theorem last_percentage_match_wins (text : String) (n : ℕ)
    (hlast : (findPercents text).getLast? = some n)
    (hlo : 1 ≤ n) (hhi : n ≤ 99) :
    extract_last_percentage_value text 0 1 = .ok ((n : ℚ) / 100) := by
  unfold extract_last_percentage_value
  rw [hlast]
  show Except.ok (clampToBand ((n : ℚ) / 100) 0 1) = _
  congr 1
  unfold clampToBand epsBand
  have hn1 : (1 : ℚ) ≤ (n : ℚ) := by exact_mod_cast hlo
  have hn2 : (n : ℚ) ≤ 99 := by exact_mod_cast hhi
  have hb1 : (0 : ℚ) + 1 / 100 ≤ (n : ℚ) / 100 := by linarith
  have hb2 : (n : ℚ) / 100 ≤ 1 - 1 / 100 := by linarith
  rw [max_eq_left hb1, min_eq_left hb2]

/-- Witness for C4 (amended) at the spec's own example: the text
`"...maybe 30%... Probability: 62%"` yields `0.62`, not `0.30`. -/
theorem last_percentage_match_wins_witness :
    extract_last_percentage_value "...maybe 30%... Probability: 62%" 0 1
      = .ok (((62 : ℕ) : ℚ) / 100) :=
  last_percentage_match_wins "...maybe 30%... Probability: 62%" 62
    (by decide) (by decide) (by decide)

/-! ## Theorems: option-list extractor -/

/-- Dividing every element of a list by a constant divides the sum. -/
theorem sum_map_div (l : List ℚ) (c : ℚ) :
    (l.map (fun x => x / c)).sum = l.sum / c := by
  induction l with
  | nil => simp
  | cons a t ih => simp [ih, add_div]

/-- A nonempty list of rationals all at least a positive bound has a
positive sum. -/
theorem sum_pos_of_le (ε : ℚ) (hε : 0 < ε) (l : List ℚ) (hne : l ≠ [])
    (h : ∀ x ∈ l, ε ≤ x) : 0 < l.sum := by
  cases l with
  | nil => exact absurd rfl hne
  | cons a t =>
    have ha : ε ≤ a := h a (List.mem_cons_self a t)
    have ht : 0 ≤ t.sum :=
      List.sum_nonneg (fun x hx =>
        le_trans (le_of_lt hε) (h x (List.mem_cons_of_mem a hx)))
    simp only [List.sum_cons]
    linarith

/-- Mapping a pair-rebuilding function that keeps the first component
preserves the list of first components. -/
theorem map_fst_map_pair {α β γ : Type} (l : List (α × β)) (g : α × β → γ) :
    (l.map (fun x => (x.1, g x))).map Prod.fst = l.map Prod.fst := by
  induction l with
  | nil => rfl
  | cons a t ih => simp [ih]

/-- Tagging each element with a computed second component and projecting
back yields the original list. -/
theorem map_fst_map_label {α β : Type} (l : List α) (g : α → β) :
    (l.map (fun o => (o, g o))).map Prod.fst = l := by
  induction l with
  | nil => rfl
  | cons a t ih => simp [ih]

/-- Normalisation preserves labels and their order. -/
theorem fst_normalizeProbs (l : List (String × ℚ)) :
    (normalizeProbs l).map Prod.fst = l.map Prod.fst := by
  unfold normalizeProbs
  split_ifs with h
  · rfl
  · exact map_fst_map_pair l _

/-- Flooring preserves labels and their order. -/
theorem fst_floorProbs (l : List (String × ℚ)) :
    (floorProbs l).map Prod.fst = l.map Prod.fst :=
  map_fst_map_pair l _

/-- The raw probabilities carry exactly the canonical labels in
canonical order. -/
theorem fst_rawProbs (lines : List (String × ℚ)) (options : List String) :
    (rawProbs lines options).map Prod.fst = options :=
  map_fst_map_label options _

theorem length_normalizeProbs (l : List (String × ℚ)) :
    (normalizeProbs l).length = l.length := by
  unfold normalizeProbs
  split_ifs <;> simp

theorem length_floorProbs (l : List (String × ℚ)) :
    (floorProbs l).length = l.length := by
  simp [floorProbs]

theorem length_rawProbs (lines : List (String × ℚ)) (options : List String) :
    (rawProbs lines options).length = options.length := by
  simp [rawProbs]

/-- After flooring, every probability is at least the floor. -/
theorem floorProbs_ge (l : List (String × ℚ)) :
    ∀ x ∈ (floorProbs l).map (fun x => x.2), floorEps ≤ x := by
  intro x hx
  simp only [floorProbs, List.map_map, List.mem_map, Function.comp] at hx
  obtain ⟨a, _, hab⟩ := hx
  rw [← hab]
  exact le_max_right _ _

/-- Normalising a list whose probabilities have nonzero sum yields
probabilities summing exactly to 1. -/
theorem sum_normalizeProbs (l : List (String × ℚ))
    (h : (l.map (fun x => x.2)).sum ≠ 0) :
    ((normalizeProbs l).map (fun x => x.2)).sum = 1 := by
  unfold normalizeProbs
  rw [if_neg h]
  have h2 : (l.map (fun x => (x.1, x.2 / (l.map (fun x => x.2)).sum))).map
      (fun x => x.2)
      = (l.map (fun x => x.2)).map
        (fun x => x / (l.map (fun x => x.2)).sum) := by
    simp [List.map_map]
  rw [h2, sum_map_div, div_self h]

/-- C5: whenever the option-list extraction succeeds (at least one
matched option), the probabilities of the returned list sum exactly
to 1, including after the per-option floor. -/
theorem option_list_probabilities_sum_to_one (lines : List (String × ℚ))
    (options : List String) (result : List (String × ℚ))
    (h : extract_option_list_with_percentage_afterwards lines options
      = .ok result) :
    (result.map (fun x => x.2)).sum = 1 := by
  unfold extract_option_list_with_percentage_afterwards at h
  by_cases hall : (options.map (fun o => lookupOption lines o)).all
      (fun v => v.isNone) = true
  · rw [if_pos hall] at h
    exact absurd h (by simp)
  · rw [if_neg hall] at h
    have hres := Except.ok.inj h
    rw [← hres]
    have hopts : options ≠ [] := by
      intro he
      subst he
      exact hall rfl
    apply sum_normalizeProbs
    apply ne_of_gt
    refine sum_pos_of_le floorEps (by norm_num [floorEps]) _ ?_
      (floorProbs_ge _)
    intro he
    have hlen := congrArg List.length he
    simp only [List.length_map, List.length_nil, length_floorProbs,
      length_normalizeProbs, length_rawProbs] at hlen
    exact hopts (List.eq_nil_of_length_eq_zero hlen)

/-- Witness for C5 at the spec P4 example: options Red, Green, Blue
with text lines in scrambled order; the probabilities sum to 1. -/
theorem option_list_probabilities_sum_to_one_witness :
    (([("Red", (1 : ℚ) / 5), ("Green", 3 / 10), ("Blue", 1 / 2)]).map
      (fun x => x.2)).sum = 1 :=
  option_list_probabilities_sum_to_one
    [("Blue", 50), ("Red", 20), ("Green", 30)] ["Red", "Green", "Blue"]
    [("Red", (1 : ℚ) / 5), ("Green", 3 / 10), ("Blue", 1 / 2)]
    (by simp +decide [extract_option_list_with_percentage_afterwards,
        rawProbs, normalizeProbs, floorProbs, lookupOption, floorEps]
        norm_num)

/-- C6: a successfully parsed option list has exactly one entry per
canonical option, in the canonical order, whatever order the model
text lines use. -/
theorem option_list_matches_canonical_order (lines : List (String × ℚ))
    (options : List String) (result : List (String × ℚ))
    (h : extract_option_list_with_percentage_afterwards lines options
      = .ok result) :
    result.map Prod.fst = options := by
  unfold extract_option_list_with_percentage_afterwards at h
  by_cases hall : (options.map (fun o => lookupOption lines o)).all
      (fun v => v.isNone) = true
  · rw [if_pos hall] at h
    exact absurd h (by simp)
  · rw [if_neg hall] at h
    have hres := Except.ok.inj h
    rw [← hres, fst_normalizeProbs, fst_floorProbs, fst_normalizeProbs,
      fst_rawProbs]

/-- Witness for C6: text lines in the order Blue, Red, Green still
yield the canonical order Red, Green, Blue. -/
theorem option_list_matches_canonical_order_witness :
    ([("Red", (1 : ℚ) / 5), ("Green", 3 / 10), ("Blue", 1 / 2)]).map
      Prod.fst = ["Red", "Green", "Blue"] :=
  option_list_matches_canonical_order
    [("Blue", 50), ("Red", 20), ("Green", 30)] ["Red", "Green", "Blue"]
    [("Red", (1 : ℚ) / 5), ("Green", 3 / 10), ("Blue", 1 / 2)]
    (by simp +decide [extract_option_list_with_percentage_afterwards,
        rawProbs, normalizeProbs, floorProbs, lookupOption, floorEps]
        norm_num)


/-! ## Theorems: percentile extractor -/

/-- Every value produced by the monotonic repair is at least the running
previous value. -/
theorem repairFrom_ge (l : List (ℕ × ℚ)) :
    ∀ (prev : ℚ), ∀ x ∈ repairFrom prev l, prev ≤ x.2 := by
  induction l with
  | nil => intro prev x hx; simp [repairFrom] at hx
  | cons a t ih =>
    intro prev x hx
    obtain ⟨p, v⟩ := a
    simp only [repairFrom, List.mem_cons] at hx
    rcases hx with h | h
    · rw [h]; exact le_max_right _ _
    · exact le_trans (le_max_right v prev) (ih (max v prev) x h)

/-- The monotonic repair yields pairwise non-decreasing values. -/
theorem chain'_repairFrom (l : List (ℕ × ℚ)) :
    ∀ prev, List.Chain' (fun a b => a.2 ≤ b.2) (repairFrom prev l) := by
  induction l with
  | nil => intro prev; simp [repairFrom]
  | cons a t ih =>
    intro prev
    obtain ⟨p, v⟩ := a
    simp only [repairFrom]
    refine List.chain'_cons'.mpr ⟨?_, ih (max v prev)⟩
    intro b hb
    exact repairFrom_ge t (max v prev) b (List.mem_of_mem_head? hb)

/-- Monotonic repair of a whole list yields non-decreasing values. -/
theorem chain'_repairMonotone (l : List (ℕ × ℚ)) :
    List.Chain' (fun a b => a.2 ≤ b.2) (repairMonotone l) := by
  cases l with
  | nil => simp [repairMonotone]
  | cons a t =>
    obtain ⟨p, v⟩ := a
    simp only [repairMonotone]
    refine List.chain'_cons'.mpr ⟨?_, chain'_repairFrom t v⟩
    intro b hb
    exact repairFrom_ge t v b (List.mem_of_mem_head? hb)

/-- Repair never changes the percentile ranks. -/
theorem fst_repairFrom (l : List (ℕ × ℚ)) :
    ∀ prev, (repairFrom prev l).map Prod.fst = l.map Prod.fst := by
  induction l with
  | nil => intro prev; rfl
  | cons a t ih =>
    intro prev
    obtain ⟨p, v⟩ := a
    simp [repairFrom, ih]

/-- Repair never changes the percentile ranks. -/
theorem fst_repairMonotone (l : List (ℕ × ℚ)) :
    (repairMonotone l).map Prod.fst = l.map Prod.fst := by
  cases l with
  | nil => rfl
  | cons a t =>
    obtain ⟨p, v⟩ := a
    simp [repairMonotone, fst_repairFrom]

/-- Repair never discards a data point. -/
theorem length_repairFrom (l : List (ℕ × ℚ)) :
    ∀ prev, (repairFrom prev l).length = l.length := by
  induction l with
  | nil => intro prev; rfl
  | cons a t ih =>
    intro prev
    obtain ⟨p, v⟩ := a
    simp [repairFrom, ih]

/-- Repair never discards a data point. -/
theorem length_repairMonotone (l : List (ℕ × ℚ)) :
    (repairMonotone l).length = l.length := by
  cases l with
  | nil => rfl
  | cons a t =>
    obtain ⟨p, v⟩ := a
    simp [repairMonotone, length_repairFrom]

/-- Clipping to the upper bound is monotone. -/
theorem clipUpper_mono (q : NumericQuestion) {a b : ℚ} (h : a ≤ b) :
    clipUpper q a ≤ clipUpper q b := by
  unfold clipUpper
  split_ifs
  · exact h
  · exact min_le_min h le_rfl

/-- Clipping to the question's bounds is monotone. -/
theorem clipValue_mono (q : NumericQuestion) {a b : ℚ} (h : a ≤ b) :
    clipValue q a ≤ clipValue q b := by
  unfold clipValue
  split_ifs
  · exact clipUpper_mono q h
  · exact max_le_max (clipUpper_mono q h) le_rfl

/-- C7: a successfully built numeric distribution has non-decreasing
values along non-decreasing percentile ranks, and keeps every parsed
data point (repair clamps, it never discards). -/
theorem numeric_distribution_monotonic_and_complete
    (pairs : List (ℕ × ℚ)) (q : NumericQuestion)
    (dist : NumericDistribution)
    (h : extract_numeric_distribution_from_list_of_percentile_number_and_probability
      pairs q = .ok dist) :
    List.Chain' (fun a b => a.2 ≤ b.2) dist.declared_percentiles ∧
    List.Chain' (fun a b => a.1 ≤ b.1) dist.declared_percentiles ∧
    dist.declared_percentiles.length = pairs.length := by
  unfold extract_numeric_distribution_from_list_of_percentile_number_and_probability at h
  by_cases hlen : pairs.length < 2
  · rw [if_pos hlen] at h
    exact absurd h (by simp)
  · rw [if_neg hlen] at h
    have hres := Except.ok.inj h
    rw [← hres]
    refine ⟨?_, ?_, ?_⟩
    · exact List.chain'_map_of_chain'
        (fun x : ℕ × ℚ => (x.1, clipValue q x.2))
        (fun a b hab => clipValue_mono q hab) (chain'_repairMonotone _)
    · have hs : List.Sorted percLE (pairs.insertionSort percLE) :=
        List.sorted_insertionSort percLE pairs
      have hc : List.Chain' percLE (pairs.insertionSort percLE) :=
        List.chain'_iff_pairwise.mpr hs
      have h1 : ((repairMonotone (pairs.insertionSort percLE)).map
            (fun x => (x.1, clipValue q x.2))).map Prod.fst
          = (pairs.insertionSort percLE).map Prod.fst := by
        rw [map_fst_map_pair, fst_repairMonotone]
      exact (List.chain'_map Prod.fst).mp
        (h1 ▸ (List.chain'_map Prod.fst).mpr hc)
    · have h2 := congrArg List.length (fst_repairMonotone
        (pairs.insertionSort percLE))
      simp only [List.length_map] at h2
      simp [List.length_map, h2, List.length_insertionSort]


/-- Witness for C7 at the spec P5 example: percentiles
`10:5, 20:3, 50:10, 90:8` are repaired to `10:5, 20:5, 50:10, 90:10`
with no point discarded. -/
theorem numeric_distribution_monotonic_and_complete_witness :
    List.Chain' (fun a b : ℕ × ℚ => a.2 ≤ b.2)
      [((10 : ℕ), (5 : ℚ)), (20, 5), (50, 10), (90, 10)] ∧
    List.Chain' (fun a b : ℕ × ℚ => a.1 ≤ b.1)
      [((10 : ℕ), (5 : ℚ)), (20, 5), (50, 10), (90, 10)] ∧
    ([((10 : ℕ), (5 : ℚ)), (20, 5), (50, 10), (90, 10)]).length
      = ([((10 : ℕ), (5 : ℚ)), (20, 3), (50, 10), (90, 8)]).length :=
  numeric_distribution_monotonic_and_complete
    [(10, 5), (20, 3), (50, 10), (90, 8)] ⟨0, 0, true, true, none⟩
    ⟨[(10, 5), (20, 5), (50, 10), (90, 10)], 0, 0, true, true⟩
    (by simp +decide
        [extract_numeric_distribution_from_list_of_percentile_number_and_probability,
        repairMonotone, repairFrom, clipValue, clipUpper, percLE,
        List.insertionSort, List.orderedInsert, max_def])


end MetacBot
